import Mathlib

/-!
Verification of the frame/ROI data pipeline of the `web_microview` microscopy
dashboard (`src/app.py`, class `MicroscopyDashboard`).

Modelling conventions:
* A numpy 2-D array (one frame) is a list of rows, `Frame α`; a stack
  (`self.current_stack`) is a list of frames.  Pixel samples are modelled as
  rationals where the source holds concrete TIFF data, and the display /
  contrast path is generic over a linear ordered field so the same
  definitions serve both the rational data path and the real-valued
  power-transform path.
* Python / numpy operations that can raise are modelled with `Option` (or
  `Except`): a `none` result marks an exception escaping the corresponding
  statement.  `float` arithmetic is modelled as exact field arithmetic.
* Each `update_*` definition mirrors the method of the same name in
  `MicroscopyDashboard`; the Bokeh data sources it writes are fields of
  `DashState` (or the returned value, for the ROI view plot).
-/

set_option maxRecDepth 4096

namespace MicroView

/-- A 2-D numpy array, as a list of rows. -/
abbrev Frame (α : Type) := List (List α)

/-- All samples of a frame in row-major order (numpy reductions such as
`np.mean` flatten their argument). -/
def flat {α : Type} (f : Frame α) : List α :=
  f.foldr (fun row acc => row ++ acc) []

/-- Number of rows, `frame.shape[0]`. -/
def frameH {α : Type} (f : Frame α) : ℕ := f.length

/-- Number of columns, `frame.shape[1]` (rows of a numpy array are uniform;
for the list model we read the first row). -/
def frameW {α : Type} (f : Frame α) : ℕ := (f.head?.getD []).length

/-- `stack.shape[1]` for a 3-D stack: height of its frames. -/
def stackH {α : Type} (stk : List (Frame α)) : ℕ := frameH (stk.head?.getD [])

/-- `stack.shape[2]` for a 3-D stack: width of its frames. -/
def stackW {α : Type} (stk : List (Frame α)) : ℕ := frameW (stk.head?.getD [])

/-- Python `int(q)`: truncation toward zero. -/
def pyInt (q : ℚ) : ℤ :=
  if q < 0 then -Int.floor (-q) else Int.floor q

/-- Python float division `a / b`: raises `ZeroDivisionError` when `b = 0`,
modelled by `none`. -/
def pyDiv {α : Type} [DivisionRing α] [DecidableEq α] (a b : α) : Option α :=
  if b = 0 then none else some (a / b)

/-- Python sequence indexing `l[i]` for an integer `i`: negative indices
count from the end; an index out of range raises `IndexError` (`none`). -/
def pyGet {α : Type} (l : List α) (i : ℤ) : Option α :=
  let j : ℤ := if i < 0 then i + l.length else i
  if 0 ≤ j ∧ j < l.length then l.get? j.toNat else none

/-- Python slicing `l[a:b]` (step 1): negative bounds count from the end,
and the effective bounds are clamped into `[0, len l]`. -/
def pySlice {α : Type} (l : List α) (a b : ℤ) : List α :=
  let n : ℤ := l.length
  let a' : ℤ := if a < 0 then max 0 (n + a) else min a n
  let b' : ℤ := if b < 0 then max 0 (n + b) else min b n
  (l.drop a'.toNat).take (b' - a').toNat

/-- `np.min` over a 1-D list of samples; numpy raises `ValueError` on a
zero-size reduction, modelled by `none`. -/
def listMin {α : Type} [LinearOrder α] : List α → Option α
  | [] => none
  | x :: xs => some (xs.foldl min x)

/-- `np.max` over a 1-D list of samples; `none` models the `ValueError`
raised on a zero-size reduction. -/
def listMax {α : Type} [LinearOrder α] : List α → Option α
  | [] => none
  | x :: xs => some (xs.foldl max x)

/-- `frame.min()` (reduction over all samples). -/
def frameMin {α : Type} [LinearOrder α] (f : Frame α) : Option α :=
  listMin (flat f)

/-- `frame.max()` (reduction over all samples). -/
def frameMax {α : Type} [LinearOrder α] (f : Frame α) : Option α :=
  listMax (flat f)

/-- The normalization step of `update_image_source` (app.py lines 364-373):
compute the frame's min and max; on a uniform frame return an all-zero
array of the same shape (`np.zeros_like`), otherwise
`(frame - f_min) / (f_max - f_min)` elementwise. -/
def normalizeFrame {α : Type} [LinearOrderedField α] [DecidableEq α]
    (f : Frame α) : Option (Frame α) := do
  let mn ← frameMin f
  let mx ← frameMax f
  if mx = mn then
    pure (f.map (List.map (fun _ => (0 : α))))
  else
    pure (f.map (List.map (fun x => (x - mn) / (mx - mn))))

/-- The contents written to `self.image_source.data` by
`update_image_source`: the normalized image plus `dw = frame.shape[1]` and
`dh = frame.shape[0]`. -/
structure DisplayData (α : Type) where
  image : Frame α
  dw : ℕ
  dh : ℕ
  deriving Repr

/-- `update_image_source` (app.py lines 362-379). -/
def update_image_source {α : Type} [LinearOrderedField α] [DecidableEq α]
    (frame : Frame α) : Option (DisplayData α) := do
  let g ← normalizeFrame frame
  pure ⟨g, frameW frame, frameH frame⟩

/-- `np.mean` over the (flattened) samples; `none` models the `nan` produced
(with a warning) on an empty input — `ℚ` has no NaN value. -/
def np_mean (l : List ℚ) : Option ℚ :=
  if l = [] then none else some (l.sum / l.length)

/-- The quantity under the square root in `np.std`: the mean of the squared
deviations from the mean (numpy's default `ddof=0`). -/
def np_var (l : List ℚ) : Option ℚ :=
  (np_mean l).bind fun m => np_mean (l.map (fun x => (x - m) ^ 2))

/-- `np.std` (population standard deviation, numpy default `ddof=0`):
the square root of the mean squared deviation. -/
noncomputable def np_std (l : List ℚ) : Option ℝ :=
  (np_var l).map (fun v => Real.sqrt (v : ℝ))

/-- `np.median`: sort the samples; take the middle one for odd length, the
mean of the two middle ones for even length; `nan` (here `none`) on empty
input. -/
def np_median (l : List ℚ) : Option ℚ :=
  let s := l.insertionSort (· ≤ ·)
  let n := l.length
  if n = 0 then none
  else if n % 2 = 1 then s.get? (n / 2)
  else do
    let a ← s.get? (n / 2 - 1)
    let b ← s.get? (n / 2)
    pure ((a + b) / 2)

/-- The five scalars written to `self.roi_stats_source.data` by
`update_roi_stats`: Mean, Std Dev, Min, Max, Median. -/
structure StatsRec where
  mean : ℚ
  std_dev : ℝ
  vmin : ℚ
  vmax : ℚ
  median : ℚ

/-- The statistics block of `update_roi_stats` (app.py lines 212-222):
`np.mean`, `np.std`, `np.min`, `np.max`, `np.median` of the extracted ROI.
A `none` result marks the claim-violating outcome on an empty ROI: numpy
returns `nan` from `np.mean`/`np.std`/`np.median` and raises `ValueError`
from `np.min`/`np.max`, so the assignment to `roi_stats_source.data` never
completes and the exception escapes the callback. -/
noncomputable def roi_statistics (roi : Frame ℚ) : Option StatsRec := do
  let vals := flat roi
  let m ← np_mean vals
  let sd ← np_std vals
  let mn ← listMin vals
  let mx ← listMax vals
  let md ← np_median vals
  pure ⟨m, sd, mn, mx, md⟩

/-- The ROI rectangle held in `self.roi_source.data` (set by `update_roi`
from the box-select geometry): `x`, `y`, `width`, `height` as floats. -/
structure RoiRect where
  x : ℚ
  y : ℚ
  w : ℚ
  h : ℚ
  deriving DecidableEq, Repr

/-- The effective (clamped, integer) rectangle computed by
`update_roi_view` / `update_roi_stats`. -/
structure ClampedRect where
  x0 : ℤ
  y0 : ℤ
  w : ℤ
  h : ℤ
  deriving DecidableEq, Repr

/-- The coordinate clamp shared by `update_roi_view` (app.py lines 180-184)
and `update_roi_stats` (lines 202-206):
`x0 = int(max(0, x))`, `y0 = int(max(0, y))`,
`width = int(min(stack.shape[2] - x0, width))`,
`height = int(min(stack.shape[1] - y0, height))`.
`shape[i] - x0` is Python int arithmetic; the following `min` compares the
int with the float request, and `int(...)` truncates the result. -/
def clampRect (Hn Wn : ℕ) (r : RoiRect) : ClampedRect :=
  let x0 : ℤ := pyInt (max 0 r.x)
  let y0 : ℤ := pyInt (max 0 r.y)
  let w : ℤ := pyInt (min ((((Wn : ℤ) - x0 : ℤ)) : ℚ) r.w)
  let h : ℤ := pyInt (min ((((Hn : ℤ) - y0 : ℤ)) : ℚ) r.h)
  ⟨x0, y0, w, h⟩

/-- `roi = frame[y0:y0+height, x0:x0+width]` (app.py lines 188 and 210). -/
def extractRoi {α : Type} (frame : Frame α) (c : ClampedRect) : Frame α :=
  (pySlice frame c.y0 (c.y0 + c.h)).map (fun row => pySlice row c.x0 (c.x0 + c.w))

/-- The decoded pixel array returned by `tif.asarray()`, by rank.  Ranks
other than 2 and 3 keep only what the handler inspects: `ndim` and the
sample values (used by `stack.min()`/`stack.max()` before the rank check). -/
inductive Decoded where
  | r2 : Frame ℚ → Decoded
  | r3 : List (Frame ℚ) → Decoded
  | other : ℕ → List ℚ → Decoded
  deriving DecidableEq, Repr

/-- `stack.ndim`. -/
def ndim : Decoded → ℕ
  | .r2 _ => 2
  | .r3 _ => 3
  | .other n _ => n

/-- All samples of the decoded array (for `stack.min()` / `stack.max()`). -/
def flatVals : Decoded → List ℚ
  | .r2 m => flat m
  | .r3 t => (t.map flat).foldr (fun l acc => l ++ acc) []
  | .other _ vs => vs

/-- `f"{stack.shape}"`, the Python tuple repr of the raw decoded array's
shape.  For ranks other than 2 and 3 this string is only ever computed on
the error path (where the reset discards the metadata), so its exact value
is irrelevant and a placeholder is used. -/
def shapeStr : Decoded → String
  | .r2 m => "(" ++ toString (frameH m) ++ ", " ++ toString (frameW m) ++ ")"
  | .r3 t =>
      "(" ++ toString t.length ++ ", " ++ toString (stackH t) ++ ", "
        ++ toString (stackW t) ++ ")"
  | .other _ _ => "(?)"

/-- `tif.asarray()` output together with `stack.dtype`. -/
structure DecodedArr where
  dtypeName : String
  data : Decoded
  deriving DecidableEq, Repr

/-- Assignment `d[k] = v` into a Python dict kept as an association list in
insertion order (keys are unique by construction): overwrite the entry with
that key in place, else append. -/
def pyDictSet : List (String × String) → String → String →
    List (String × String)
  | [], k, v => [(k, v)]
  | kv :: d, k, v => if kv.1 = k then (k, v) :: d else kv :: pyDictSet d k v

/-- Dict lookup `d[k]` (first entry with the key). -/
def dictGet (d : List (String × String)) (k : String) : Option String :=
  (d.find? (fun kv => kv.1 == k)).map (fun kv => kv.2)

/-- The metadata extraction of `handle_file_upload` (app.py lines 295-307):
the three derived keys from the raw decoded array, then one entry per TIFF
tag of the first page.  `none` models the `ValueError` raised by
`stack.min()` on a zero-size array. -/
def buildMetadata (arr : DecodedArr) (tags : List (String × String)) :
    Option (List (String × String)) := do
  let mn ← listMin (flatVals arr.data)
  let mx ← listMax (flatVals arr.data)
  let base := pyDictSet (pyDictSet (pyDictSet []
      "Dimensions" (shapeStr arr.data))
      "Data Type" arr.dtypeName)
      "Value Range" (toString mn ++ " to " ++ toString mx)
  pure (tags.foldl (fun d kv => pyDictSet d kv.1 kv.2) base)

/-- The rank dispatch of `handle_file_upload` (app.py lines 309-315): a 2-D
array becomes the 1-frame stack `np.array([stack])`, a 3-D array is kept
with the first axis as frame index, any other rank raises `ValueError`. -/
def wrapStack : Decoded → Except String (List (Frame ℚ))
  | .r2 m => .ok [m]
  | .r3 t => .ok t
  | .other n _ => .error ("Unsupported image dimensions: " ++ toString n)

/-- The per-session mutable state of `MicroscopyDashboard` that the
pipeline claims refer to: the current stack, the metadata dict, the main
image data source, the ROI rectangle source, the ROI statistics source and
the frame slider (value and visibility). -/
structure DashState (α : Type) where
  current_stack : Option (List (Frame ℚ))
  metadata : List (String × String)
  image_source : DisplayData α
  roi_source : Option RoiRect
  roi_stats : StatsRec
  frame_slider_value : ℤ
  frame_slider_visible : Bool

/-- `self.empty_image`: `np.zeros((512, 512), dtype=np.uint16)`. -/
def empty_image : Frame ℚ :=
  List.replicate 512 (List.replicate 512 0)

/-- Cast a decoded (rational-valued) frame into the display sample type
(numpy's implicit int-to-float promotion during display arithmetic). -/
def castFrame {α : Type} [DivisionRing α] (f : Frame ℚ) : Frame α :=
  f.map (List.map (fun q => (Rat.cast q : α)))

/-- Run `update_image_source` and store the result; a `none` result stands
for an exception that the enclosing `try`/`except` of the caller swallows,
leaving the state unchanged. -/
def apply_display {α : Type} [LinearOrderedField α] [DecidableEq α]
    (s : DashState α) (f : Frame α) : DashState α :=
  match update_image_source f with
  | some d => { s with image_source := d }
  | none => s

/-- `update_frame` (app.py lines 345-360).  Total: the method catches its
own exceptions and out-of-range indices are ignored with a diagnostic. -/
def update_frame {α : Type} [LinearOrderedField α] [DecidableEq α]
    (s : DashState α) (new : ℤ) : DashState α :=
  match s.current_stack with
  | some stk =>
      if stk.length ≠ 0 then
        if new < 0 ∨ (stk.length : ℤ) ≤ new then s
        else
          match pyGet stk new with
          | some f => apply_display s (castFrame f)
          | none => s
      else apply_display s (castFrame empty_image)
  | none => apply_display s (castFrame empty_image)

/-- The `except` branch of `handle_file_upload` (app.py lines 333-343):
clear the stack and metadata, show the placeholder image, hide the frame
slider. -/
def reset_state {α : Type} [LinearOrderedField α] [DecidableEq α]
    (s : DashState α) : DashState α :=
  let s1 := { s with current_stack := none, metadata := [] }
  let s2 := apply_display s1 (castFrame empty_image)
  { s2 with frame_slider_visible := false }

/-- `handle_file_upload` (app.py lines 272-343).  The library part of the
decode (base64 + `tifffile`) is external; the handler is modelled as a
function of its outcome: `none` for an empty `new`, `.error` for any parse
or decode exception, `.ok` for a decoded array plus first-page tag list. -/
def handle_file_upload {α : Type} [LinearOrderedField α] [DecidableEq α]
    (s : DashState α)
    (new : Option (Except String (DecodedArr × List (String × String)))) :
    DashState α :=
  match new with
  | none => s
  | some (.error _) => reset_state s
  | some (.ok (arr, tags)) =>
      match buildMetadata arr tags with
      | none => reset_state s
      | some md =>
          let s1 := { s with metadata := md }
          match wrapStack arr.data with
          | .error _ => reset_state s1
          | .ok stk =>
              let s2 := { s1 with current_stack := some stk }
              let s3 :=
                if stk.length > 1 then
                  { s2 with frame_slider_value := 0, frame_slider_visible := true }
                else
                  { s2 with frame_slider_visible := false }
              update_frame s3 0

/-- `update_roi_view` (app.py lines 175-195): clamp the rectangle, slice
the raw current frame, and return the data written to the ROI plot source
(`image`, `dw`, `dh`).  `none` models both early returns and an
`IndexError` from the frame lookup.  (The final assignment in the source
targets `self.roi_plot.image_renderer`, a nonexistent attribute, so at
runtime the computed data never reaches the plot; the computation itself is
as modelled.) -/
def update_roi_view {α : Type} (s : DashState α) :
    Option (Frame ℚ × ℤ × ℤ) :=
  match s.current_stack, s.roi_source with
  | some stk, some roi =>
      let c := clampRect (stackH stk) (stackW stk) roi
      (pyGet stk s.frame_slider_value).map
        (fun frame => (extractRoi frame c, c.w, c.h))
  | _, _ => none

/-- `update_roi_stats` (app.py lines 197-222): clamp the rectangle, slice
the raw current frame, compute the five statistics and store them.  `some`
of an updated state on success, `some s` unchanged on the early-return
guards, `none` when an exception escapes (frame `IndexError`, or the
`ValueError` raised by `np.min` on an empty ROI). -/
noncomputable def update_roi_stats {α : Type} (s : DashState α) : Option (DashState α) :=
  match s.current_stack, s.roi_source with
  | some stk, some roi =>
      let c := clampRect (stackH stk) (stackW stk) roi
      (pyGet stk s.frame_slider_value).bind fun frame =>
        (roi_statistics (extractRoi frame c)).map
          (fun st => { s with roi_stats := st })
  | _, _ => some s

/-- `np.power(frame, inv)` on a decoded frame (app.py line 385), with the
precomputed exponent `inv = 1/new`; real-valued power `x ^ inv` models
numpy's float power. -/
noncomputable def contrast_tfm (f : Frame ℚ) (inv : ℝ) : Frame ℝ :=
  f.map (List.map (fun x => (Rat.cast x : ℝ) ^ inv))

/-- `update_contrast` (app.py lines 381-386): with a stack loaded, fetch
the raw current frame, apply the power transform with exponent `1/new`,
and feed the result to `update_image_source`.  `none` models an uncaught
exception (`ZeroDivisionError` from `1/new` when `new = 0`, or an
`IndexError` from the frame lookup); with no stack loaded the method does
nothing. -/
noncomputable def update_contrast (s : DashState ℝ) (g : ℝ) :
    Option (DashState ℝ) :=
  match s.current_stack with
  | none => some s
  | some stk => do
      let frame ← pyGet stk s.frame_slider_value
      let inv ← pyDiv 1 g
      let d ← update_image_source (contrast_tfm frame inv)
      pure { s with image_source := d }

/-! ### Helper lemmas -/

/-- Truncation toward zero agrees with the identity on integers. -/
theorem pyInt_intCast (n : ℤ) : pyInt (n : ℚ) = n := by
  unfold pyInt
  split
  · rw [← Int.cast_neg, Int.floor_intCast]; omega
  · exact Int.floor_intCast n

/-- Truncation toward zero preserves nonnegativity. -/
theorem pyInt_nonneg {q : ℚ} (h : 0 ≤ q) : 0 ≤ pyInt q := by
  unfold pyInt
  rw [if_neg (not_lt.mpr h)]
  exact Int.le_floor.mpr (by exact_mod_cast h)

/-- Truncation toward zero is monotone. -/
theorem pyInt_mono {a b : ℚ} (h : a ≤ b) : pyInt a ≤ pyInt b := by
  unfold pyInt
  by_cases ha : a < 0
  · by_cases hb : b < 0
    · rw [if_pos ha, if_pos hb]
      have hfl : Int.floor (-b) ≤ Int.floor (-a) := Int.floor_mono (by linarith)
      omega
    · rw [if_pos ha, if_neg hb]
      have h1 : (0 : ℤ) ≤ Int.floor (-a) := Int.le_floor.mpr (by push_cast; linarith)
      have h2 : (0 : ℤ) ≤ Int.floor b := Int.le_floor.mpr (by push_cast; linarith)
      omega
  · rw [if_neg ha, if_neg (by linarith : ¬ b < 0)]
    exact Int.floor_mono h

theorem flat_nil {α : Type} : flat ([] : Frame α) = [] := rfl

theorem flat_cons {α : Type} (r : List α) (rs : Frame α) :
    flat (r :: rs) = r ++ flat rs := rfl

/-- Membership in the flattened frame. -/
theorem mem_flat {α : Type} {f : Frame α} {x : α} :
    x ∈ flat f ↔ ∃ row, row ∈ f ∧ x ∈ row := by
  induction f with
  | nil => simp [flat_nil]
  | cons r rs ih => simp [flat_cons, List.mem_append, ih]

theorem foldl_min_le_init {α : Type} [LinearOrder α] (xs : List α) (a : α) :
    xs.foldl min a ≤ a := by
  induction xs generalizing a with
  | nil => simp
  | cons x xs ih => exact le_trans (ih (min a x)) (min_le_left a x)

theorem foldl_min_le_mem {α : Type} [LinearOrder α] {xs : List α} {y : α}
    (hy : y ∈ xs) (a : α) : xs.foldl min a ≤ y := by
  induction xs generalizing a with
  | nil => cases hy
  | cons x xs ih =>
    rcases List.mem_cons.mp hy with h | h
    · subst h
      exact le_trans (foldl_min_le_init xs (min a y)) (min_le_right a y)
    · exact ih h (min a x)

theorem foldl_min_mem {α : Type} [LinearOrder α] (xs : List α) (a : α) :
    xs.foldl min a = a ∨ xs.foldl min a ∈ xs := by
  induction xs generalizing a with
  | nil => exact Or.inl rfl
  | cons x xs ih =>
    rcases ih (min a x) with h | h
    · rcases min_choice a x with h2 | h2
      · exact Or.inl (by rw [List.foldl_cons, h, h2])
      · exact Or.inr (by rw [List.foldl_cons, h, h2]; exact List.mem_cons_self x xs)
    · exact Or.inr (List.mem_cons_of_mem x h)

theorem foldl_max_ge_init {α : Type} [LinearOrder α] (xs : List α) (a : α) :
    a ≤ xs.foldl max a := by
  induction xs generalizing a with
  | nil => simp
  | cons x xs ih => exact le_trans (le_max_left a x) (ih (max a x))

theorem foldl_max_ge_mem {α : Type} [LinearOrder α] {xs : List α} {y : α}
    (hy : y ∈ xs) (a : α) : y ≤ xs.foldl max a := by
  induction xs generalizing a with
  | nil => cases hy
  | cons x xs ih =>
    rcases List.mem_cons.mp hy with h | h
    · subst h
      exact le_trans (le_max_right a y) (foldl_max_ge_init xs (max a y))
    · exact ih h (max a x)

theorem foldl_max_mem {α : Type} [LinearOrder α] (xs : List α) (a : α) :
    xs.foldl max a = a ∨ xs.foldl max a ∈ xs := by
  induction xs generalizing a with
  | nil => exact Or.inl rfl
  | cons x xs ih =>
    rcases ih (max a x) with h | h
    · rcases max_choice a x with h2 | h2
      · exact Or.inl (by rw [List.foldl_cons, h, h2])
      · exact Or.inr (by rw [List.foldl_cons, h, h2]; exact List.mem_cons_self x xs)
    · exact Or.inr (List.mem_cons_of_mem x h)

theorem listMin_mem {α : Type} [LinearOrder α] {l : List α} {m : α}
    (h : listMin l = some m) : m ∈ l := by
  cases l with
  | nil => cases h
  | cons x xs =>
    have hm : xs.foldl min x = m := by
      simpa [listMin] using h
    rcases foldl_min_mem xs x with h2 | h2
    · rw [← hm, h2]; exact List.mem_cons_self x xs
    · rw [← hm]; exact List.mem_cons_of_mem x h2

theorem listMin_le {α : Type} [LinearOrder α] {l : List α} {m : α}
    (h : listMin l = some m) : ∀ x ∈ l, m ≤ x := by
  cases l with
  | nil => cases h
  | cons x xs =>
    have hm : xs.foldl min x = m := by
      simpa [listMin] using h
    intro y hy
    rcases List.mem_cons.mp hy with h2 | h2
    · rw [← hm, h2]; exact foldl_min_le_init xs x
    · rw [← hm]; exact foldl_min_le_mem h2 x

theorem listMax_mem {α : Type} [LinearOrder α] {l : List α} {m : α}
    (h : listMax l = some m) : m ∈ l := by
  cases l with
  | nil => cases h
  | cons x xs =>
    have hm : xs.foldl max x = m := by
      simpa [listMax] using h
    rcases foldl_max_mem xs x with h2 | h2
    · rw [← hm, h2]; exact List.mem_cons_self x xs
    · rw [← hm]; exact List.mem_cons_of_mem x h2

theorem listMax_ge {α : Type} [LinearOrder α] {l : List α} {m : α}
    (h : listMax l = some m) : ∀ x ∈ l, x ≤ m := by
  cases l with
  | nil => cases h
  | cons x xs =>
    have hm : xs.foldl max x = m := by
      simpa [listMax] using h
    intro y hy
    rcases List.mem_cons.mp hy with h2 | h2
    · rw [← hm, h2]; exact foldl_max_ge_init xs x
    · rw [← hm]; exact foldl_max_ge_mem h2 x

theorem listMin_of_ne_nil {α : Type} [LinearOrder α] {l : List α}
    (h : l ≠ []) : ∃ m, listMin l = some m := by
  cases l with
  | nil => exact absurd rfl h
  | cons x xs => exact ⟨xs.foldl min x, rfl⟩

theorem listMax_of_ne_nil {α : Type} [LinearOrder α] {l : List α}
    (h : l ≠ []) : ∃ m, listMax l = some m := by
  cases l with
  | nil => exact absurd rfl h
  | cons x xs => exact ⟨xs.foldl max x, rfl⟩

/-- On a constant nonempty list the minimum is that constant. -/
theorem listMin_const {α : Type} [LinearOrder α] {l : List α} {c : α}
    (hne : l ≠ []) (hc : ∀ x ∈ l, x = c) : listMin l = some c := by
  obtain ⟨m, hm⟩ := listMin_of_ne_nil hne
  rw [hm, hc m (listMin_mem hm)]

/-- On a constant nonempty list the maximum is that constant. -/
theorem listMax_const {α : Type} [LinearOrder α] {l : List α} {c : α}
    (hne : l ≠ []) (hc : ∀ x ∈ l, x = c) : listMax l = some c := by
  obtain ⟨m, hm⟩ := listMax_of_ne_nil hne
  rw [hm, hc m (listMax_mem hm)]

theorem dictGet_nil (k : String) : dictGet [] k = none := rfl

theorem dictGet_cons (kv : String × String) (d : List (String × String))
    (k : String) :
    dictGet (kv :: d) k = if kv.1 = k then some kv.2 else dictGet d k := by
  by_cases h : kv.1 = k
  · rw [if_pos h]
    unfold dictGet
    rw [List.find?_cons_of_pos _ (by simpa using h)]
    rfl
  · rw [if_neg h]
    unfold dictGet
    rw [List.find?_cons_of_neg _ (by simpa using h)]

theorem dictGet_pyDictSet_same (k v : String) :
    ∀ d, dictGet (pyDictSet d k v) k = some v := by
  intro d
  induction d with
  | nil => simp [pyDictSet, dictGet_cons]
  | cons kv d ih =>
    by_cases h : kv.1 = k
    · simp [pyDictSet, h, dictGet_cons]
    · rw [pyDictSet, if_neg h, dictGet_cons, if_neg h, ih]

theorem dictGet_pyDictSet_ne {k k' : String} (h : k' ≠ k) (v : String) :
    ∀ d, dictGet (pyDictSet d k v) k' = dictGet d k' := by
  intro d
  induction d with
  | nil =>
    rw [show pyDictSet [] k v = [(k, v)] from rfl, dictGet_cons,
      if_neg (fun hh : k = k' => h hh.symm)]
  | cons kv d ih =>
    by_cases hk : kv.1 = k
    · rw [pyDictSet, if_pos hk, dictGet_cons, dictGet_cons, ← hk,
        if_neg (by rw [hk]; exact fun hh => h hh.symm)]
      rw [hk, if_neg (fun hh => h hh.symm)]
    · rw [pyDictSet, if_neg hk, dictGet_cons, dictGet_cons, ih]

/-- Folding tag insertions whose keys avoid `k` does not change `d[k]`. -/
theorem dictGet_foldl_of_notin {k : String}
    (tags : List (String × String)) (h : ∀ kv ∈ tags, kv.1 ≠ k) :
    ∀ d, dictGet (tags.foldl (fun d kv => pyDictSet d kv.1 kv.2) d) k
      = dictGet d k := by
  induction tags with
  | nil => intro d; rfl
  | cons kv tags ih =>
    intro d
    have hk : kv.1 ≠ k := h kv (List.mem_cons_self kv tags)
    have htl : ∀ kv' ∈ tags, kv'.1 ≠ k :=
      fun kv' hkv' => h kv' (List.mem_cons_of_mem kv hkv')
    rw [List.foldl_cons, ih htl, dictGet_pyDictSet_ne (fun hh => hk hh.symm)]

/-- Casting the placeholder 512x512 zero image is the zero frame over the
display field. -/
theorem castFrame_empty {α : Type} [DivisionRing α] :
    castFrame (α := α) empty_image
      = List.replicate 512 (List.replicate 512 (0 : α)) := by
  simp only [castFrame, empty_image, List.map_replicate, Rat.cast_zero]

/-- Displaying the placeholder image hits the uniform-frame branch and
stores the all-zero 512x512 grid. -/
theorem update_image_source_empty {α : Type} [LinearOrderedField α]
    [DecidableEq α] :
    update_image_source (castFrame (α := α) empty_image)
      = some ⟨List.replicate 512 (List.replicate 512 0), 512, 512⟩ := by
  rw [castFrame_empty]
  have hmem : ∀ x ∈ flat (List.replicate 512 (List.replicate 512 (0 : α))),
      x = 0 := by
    intro x hx
    obtain ⟨row, hrow, hxrow⟩ := mem_flat.mp hx
    have hr := List.eq_of_mem_replicate hrow
    subst hr
    exact List.eq_of_mem_replicate hxrow
  have hne : flat (List.replicate 512 (List.replicate 512 (0 : α))) ≠ [] := by
    have h0 : (0 : α) ∈ flat (List.replicate 512 (List.replicate 512 (0 : α))) := by
      refine mem_flat.mpr ⟨List.replicate 512 0, ?_, ?_⟩
      · exact List.mem_replicate.mpr ⟨by norm_num, rfl⟩
      · exact List.mem_replicate.mpr ⟨by norm_num, rfl⟩
    exact List.ne_nil_of_mem h0
  have hmin : frameMin (List.replicate 512 (List.replicate 512 (0 : α)))
      = some 0 := listMin_const hne hmem
  have hmax : frameMax (List.replicate 512 (List.replicate 512 (0 : α)))
      = some 0 := listMax_const hne hmem
  have hnorm : normalizeFrame (List.replicate 512 (List.replicate 512 (0 : α)))
      = some (List.replicate 512 (List.replicate 512 0)) := by
    simp only [normalizeFrame, hmin, hmax, Option.bind_eq_bind,
      Option.some_bind, if_pos rfl, if_true, List.map_replicate,
      Option.pure_def]
  have hW : frameW (List.replicate 512 (List.replicate 512 (0 : α))) = 512 := by
    rw [frameW, List.head?_replicate]
    norm_num
  have hH : frameH (List.replicate 512 (List.replicate 512 (0 : α))) = 512 :=
    List.length_replicate 512 _
  simp only [update_image_source, hnorm, Option.bind_eq_bind, Option.some_bind,
    hW, hH, Option.pure_def]

/-! ### C1: ROI rectangle clamping -/

/-- C1, counterexample to the claim as stated: for a (100,100) frame and
requested rectangle (x0=-10, y0=90, width=50, height=50), the effective
rectangle computed by `update_roi_view` / `update_roi_stats` is
(0, 90, 50, 10), not (0, 90, 40, 10): the width is clamped against the
already-clamped `x0`, so the out-of-bounds offset does not shrink it. -/
theorem roi_clamp_example_counterexample :
    clampRect 100 100 ⟨-10, 90, 50, 50⟩ ≠ ⟨0, 90, 40, 10⟩ := by
  decide

/-- C1, amended: the extractor clamps `x0` and `y0` to be ≥ 0 and clamps
width and height so that `x0 + width ≤ W` and `y0 + height ≤ H`; for a
(100,100) frame and requested rectangle (x0=-10, y0=90, width=50,
height=50) the effective rectangle is (x0=0, y0=90, width=50, height=10)
(width 50, not 40), and extraction slices rows 90..99 and columns 0..49 of
the frame. -/
theorem roi_clamp_amended :
    (∀ (Hn Wn : ℕ) (r : RoiRect),
        0 ≤ (clampRect Hn Wn r).x0 ∧ 0 ≤ (clampRect Hn Wn r).y0 ∧
        (clampRect Hn Wn r).x0 + (clampRect Hn Wn r).w ≤ (Wn : ℤ) ∧
        (clampRect Hn Wn r).y0 + (clampRect Hn Wn r).h ≤ (Hn : ℤ))
    ∧ clampRect 100 100 ⟨-10, 90, 50, 50⟩ = ⟨0, 90, 50, 10⟩
    ∧ (∀ frame : Frame ℚ, frame.length = 100 →
        extractRoi frame (clampRect 100 100 ⟨-10, 90, 50, 50⟩)
          = (frame.drop 90).map (fun row => row.take 50)) := by
  have hex : clampRect 100 100 ⟨-10, 90, 50, 50⟩ = ⟨0, 90, 50, 10⟩ := by decide
  refine ⟨fun Hn Wn r => ?_, hex, fun frame hlen => ?_⟩
  · have hx : 0 ≤ pyInt (max 0 r.x) := pyInt_nonneg (le_max_left 0 r.x)
    have hy : 0 ≤ pyInt (max 0 r.y) := pyInt_nonneg (le_max_left 0 r.y)
    have hw : pyInt (min ((((Wn : ℤ) - pyInt (max 0 r.x) : ℤ)) : ℚ) r.w)
        ≤ (Wn : ℤ) - pyInt (max 0 r.x) := by
      have h1 := pyInt_mono
        (min_le_left ((((Wn : ℤ) - pyInt (max 0 r.x) : ℤ)) : ℚ) r.w)
      rwa [pyInt_intCast] at h1
    have hh : pyInt (min ((((Hn : ℤ) - pyInt (max 0 r.y) : ℤ)) : ℚ) r.h)
        ≤ (Hn : ℤ) - pyInt (max 0 r.y) := by
      have h1 := pyInt_mono
        (min_le_left ((((Hn : ℤ) - pyInt (max 0 r.y) : ℤ)) : ℚ) r.h)
      rwa [pyInt_intCast] at h1
    refine ⟨hx, hy, ?_, ?_⟩
    · show pyInt (max 0 r.x)
          + pyInt (min ((((Wn : ℤ) - pyInt (max 0 r.x) : ℤ)) : ℚ) r.w) ≤ (Wn : ℤ)
      omega
    · show pyInt (max 0 r.y)
          + pyInt (min ((((Hn : ℤ) - pyInt (max 0 r.y) : ℤ)) : ℚ) r.h) ≤ (Hn : ℤ)
      omega
  · rw [hex]
    unfold extractRoi
    have hrows : pySlice frame (90 : ℤ) (90 + 10) = frame.drop 90 := by
      simp only [pySlice, hlen]
      norm_num
      exact List.take_of_length_le (by simp [hlen])
    have hcols : ∀ row : List ℚ, pySlice row (0 : ℤ) (0 + 50) = row.take 50 := by
      intro row
      simp only [pySlice]
      norm_num [List.take_eq_take]
      omega
    show (pySlice frame (90 : ℤ) (90 + 10)).map
        (fun row => pySlice row (0 : ℤ) (0 + 50))
      = (frame.drop 90).map (fun row => row.take 50)
    rw [hrows]
    exact List.map_congr_left (fun row _ => hcols row)

/-- C1 witness: the amended clamp/extraction facts instantiated on a
concrete 100x100 frame. -/
theorem roi_clamp_amended_witness :
    extractRoi (List.replicate 100 (List.replicate 100 (7 : ℚ)))
        (clampRect 100 100 ⟨-10, 90, 50, 50⟩)
      = ((List.replicate 100 (List.replicate 100 (7 : ℚ))).drop 90).map
          (fun row => row.take 50) :=
  roi_clamp_amended.2.2 (List.replicate 100 (List.replicate 100 (7 : ℚ)))
    (by simp)

/-! ### C2: empty-ROI statistics update -/

/-- A loaded dashboard state: one 4x4 frame, and a zero-width ROI rectangle
(x=1, y=1, width=0, height=2) as produced by a degenerate box-select
gesture.  Its clamped rectangle has width 0, so the extracted ROI is
empty. -/
def emptyRoiState : DashState ℚ :=
  ⟨some [[[1, 2, 3, 4], [5, 6, 7, 8], [9, 10, 11, 12], [13, 14, 15, 16]]],
    [], ⟨[], 0, 0⟩, some ⟨1, 1, 0, 2⟩, ⟨0, 0, 0, 0, 0⟩, 0, true⟩

/-- C2, evaluation at the failing input: with a zero-width clamped ROI the
statistics update is not a silent no-op — `np.mean`/`np.std` produce `nan`
on the empty slice and `np.min` raises `ValueError`, so the update raises
out of the callback (`none`) instead of skipping.  The spec's
`DegenerateROI` recovery ("skip ROI view/statistics update") is the
documented intent; the code lacks the guard. -/
theorem roi_stats_empty_raises :
    (clampRect 4 4 ⟨1, 1, 0, 2⟩).w = 0
    ∧ extractRoi [[(1 : ℚ), 2, 3, 4], [5, 6, 7, 8], [9, 10, 11, 12],
        [13, 14, 15, 16]] (clampRect 4 4 ⟨1, 1, 0, 2⟩) = [[], []]
    ∧ update_roi_stats emptyRoiState = none := by
  refine ⟨by decide, by decide, ?_⟩
  rfl

/-! ### C3: gamma = 0 reaches the division -/

/-- A loaded dashboard state with a single 1x1 frame, as after any
successful upload; the contrast slider's range [0, 2] makes the value 0
reachable. -/
def gammaZeroState : DashState ℝ :=
  ⟨some [[[1]]], [], ⟨[], 0, 0⟩, none, ⟨0, 0, 0, 0, 0⟩, 0, true⟩

/-- C3, evaluation at the failing input: `update_contrast` computes
`1/new` with no guard, so with a stack loaded and the slider at 0 the
division by zero is performed and `ZeroDivisionError` escapes the callback
(`none`); the claimed guard does not exist in the code. -/
theorem contrast_zero_gamma_raises :
    update_contrast gammaZeroState 0 = none := by
  have hg : pyGet [[[(1 : ℚ)]]] (0 : ℤ) = some [[1]] := by decide
  simp [update_contrast, gammaZeroState, hg, pyDiv]

/-! ### C4 and C6: decode failure reset and rank dispatch -/

/-- The `except` branch leaves exactly the empty state: no stack, empty
metadata, the all-zero 512x512 placeholder displayed, slider hidden. -/
theorem reset_state_spec {α : Type} [LinearOrderedField α] [DecidableEq α]
    (s : DashState α) :
    reset_state s = { s with
      current_stack := none
      metadata := []
      image_source := ⟨List.replicate 512 (List.replicate 512 0), 512, 512⟩
      frame_slider_visible := false } := by
  unfold reset_state apply_display
  rw [update_image_source_empty]

/-- An upload whose decoded array has unsupported rank takes the
`ValueError` path into the `except` branch and resets the state. -/
theorem handle_file_upload_other_rank {α : Type} [LinearOrderedField α]
    [DecidableEq α] (s : DashState α) (dt : String) (n : ℕ) (vs : List ℚ)
    (tags : List (String × String)) :
    handle_file_upload s (some (.ok (⟨dt, .other n vs⟩, tags)))
      = { s with
          current_stack := none
          metadata := []
          image_source := ⟨List.replicate 512 (List.replicate 512 0), 512, 512⟩
          frame_slider_visible := false } := by
  cases hbm : buildMetadata ⟨dt, .other n vs⟩ tags with
  | none =>
      simp only [handle_file_upload, hbm]
      rw [reset_state_spec]
  | some md =>
      simp only [handle_file_upload, hbm, wrapStack]
      rw [reset_state_spec]

/-- C4: any failed upload — a decode exception, or a decoded array of
unsupported rank — resets to the empty state with no residual partial
data: stack cleared, metadata emptied, display reverted to the all-zero
placeholder, frame control hidden; the handler returns normally (the
session does not crash). -/
theorem upload_failure_resets {α : Type} [LinearOrderedField α]
    [DecidableEq α] :
    (∀ (s : DashState α) (msg : String),
        handle_file_upload s (some (.error msg))
          = { s with
              current_stack := none
              metadata := []
              image_source := ⟨List.replicate 512 (List.replicate 512 0), 512, 512⟩
              frame_slider_visible := false })
    ∧ (∀ (s : DashState α) (arr : DecodedArr) (tags : List (String × String)),
        ndim arr.data ≠ 2 → ndim arr.data ≠ 3 →
        handle_file_upload s (some (.ok (arr, tags)))
          = { s with
              current_stack := none
              metadata := []
              image_source := ⟨List.replicate 512 (List.replicate 512 0), 512, 512⟩
              frame_slider_visible := false }) := by
  constructor
  · intro s msg
    show reset_state s = _
    rw [reset_state_spec]
  · intro s arr tags h2 h3
    obtain ⟨dt, data⟩ := arr
    cases data with
    | r2 m => exact absurd rfl h2
    | r3 t => exact absurd rfl h3
    | other n vs => exact handle_file_upload_other_rank s dt n vs tags

/-- C4 witness: a rank-4 upload into a fresh session resets to the empty
state. -/
theorem upload_failure_resets_witness :
    handle_file_upload
        (⟨none, [], ⟨[], 0, 0⟩, none, ⟨0, 0, 0, 0, 0⟩, 0, true⟩ : DashState ℚ)
        (some (.ok (⟨"int64", .other 4 [0]⟩, [])))
      = { (⟨none, [], ⟨[], 0, 0⟩, none, ⟨0, 0, 0, 0, 0⟩, 0, true⟩ : DashState ℚ) with
          current_stack := none
          metadata := []
          image_source := ⟨List.replicate 512 (List.replicate 512 0), 512, 512⟩
          frame_slider_visible := false } :=
  upload_failure_resets.2
    (⟨none, [], ⟨[], 0, 0⟩, none, ⟨0, 0, 0, 0, 0⟩, 0, true⟩ : DashState ℚ)
    ⟨"int64", .other 4 [0]⟩ [] (by decide) (by decide)

/-- C6: a 2-D decoded array of shape (H,W) becomes a stack of length 1
whose single frame is the array itself; a 3-D array is kept with the first
axis as frame index; any other rank yields a `ValueError` that the handler
turns into the empty-stack reset instead of a crash or a stack. -/
theorem decoder_rank_spec :
    (∀ m : Frame ℚ, wrapStack (.r2 m) = .ok [m]
        ∧ ([m] : List (Frame ℚ)).length = 1 ∧ pyGet [m] 0 = some m)
    ∧ (∀ t : List (Frame ℚ), wrapStack (.r3 t) = .ok t)
    ∧ (∀ (n : ℕ) (vs : List ℚ), ∃ msg, wrapStack (.other n vs) = .error msg)
    ∧ (∀ (s : DashState ℚ) (dt : String) (n : ℕ) (vs : List ℚ)
          (tags : List (String × String)),
        (handle_file_upload s
            (some (.ok (⟨dt, .other n vs⟩, tags)))).current_stack = none) := by
  refine ⟨fun m => ⟨rfl, rfl, by simp [pyGet]⟩, fun t => rfl,
    fun n vs => ⟨_, rfl⟩, fun s dt n vs tags => ?_⟩
  rw [handle_file_upload_other_rank]

/-! ### C5: frame normalizer -/

/-- Flattening commutes with an elementwise map. -/
theorem flat_map_map {α β : Type} (φ : α → β) (f : Frame α) :
    flat (f.map (List.map φ)) = (flat f).map φ := by
  induction f with
  | nil => rfl
  | cons r rs ih => simp [flat_cons, List.map_append, ih]

/-- C5: the normalizer is shape-preserving; a uniform frame (max = min)
yields the all-zero frame of the same shape without dividing; otherwise
the output is `(x - min) / (max - min)` elementwise, every output sample
lies in [0,1], positions holding the minimum map to exactly 0 and
positions holding the maximum map to exactly 1. -/
theorem normalizer_spec {α : Type} [LinearOrderedField α] [DecidableEq α]
    (f g : Frame α) (h : normalizeFrame f = some g) :
    g.map List.length = f.map List.length
    ∧ (frameMax f = frameMin f → g = f.map (List.map (fun _ => (0 : α))))
    ∧ (∀ mn mx, frameMin f = some mn → frameMax f = some mx → mx ≠ mn →
        flat g = (flat f).map (fun x => (x - mn) / (mx - mn))
        ∧ (∀ y ∈ flat g, 0 ≤ y ∧ y ≤ 1)
        ∧ (∀ i : ℕ, (flat f).get? i = some mn → (flat g).get? i = some 0)
        ∧ (∀ i : ℕ, (flat f).get? i = some mx → (flat g).get? i = some 1)) := by
  cases hmn : frameMin f with
  | none => simp [normalizeFrame, hmn] at h
  | some mn =>
    cases hmx : frameMax f with
    | none => simp [normalizeFrame, hmn, hmx] at h
    | some mx =>
      by_cases heq : mx = mn
      · have hg : g = f.map (List.map (fun _ => (0 : α))) := by
          simp [normalizeFrame, hmn, hmx, heq] at h
          exact h.symm
        subst hg
        refine ⟨by simp [List.map_map, Function.comp], fun _ => rfl, ?_⟩
        intro mn' mx' hmn' hmx' hne'
        injection hmn' with e1
        injection hmx' with e2
        exact absurd (by rw [← e1, ← e2]; exact heq) hne'
      · have hg : g = f.map (List.map (fun x => (x - mn) / (mx - mn))) := by
          simp [normalizeFrame, hmn, hmx, heq] at h
          exact h.symm
        subst hg
        refine ⟨by simp [List.map_map, Function.comp], ?_, ?_⟩
        · intro hEq
          injection hEq with e
          exact absurd e heq
        · intro mn' mx' hmn' hmx' hne'
          injection hmn' with e1
          injection hmx' with e2
          subst e1
          subst e2
          have hmnmx : mn < mx :=
            lt_of_le_of_ne
              (listMin_le hmn mx (listMax_mem hmx)) (fun e => heq e.symm)
          have hd : (0 : α) < mx - mn := sub_pos.mpr hmnmx
          refine ⟨flat_map_map _ f, ?_, ?_, ?_⟩
          · intro y hy
            rw [flat_map_map] at hy
            obtain ⟨x, hx, rfl⟩ := List.mem_map.mp hy
            constructor
            · exact div_nonneg (sub_nonneg.mpr (listMin_le hmn x hx)) hd.le
            · rw [div_le_one hd]
              exact sub_le_sub_right (listMax_ge hmx x hx) mn
          · intro i hi
            rw [flat_map_map, List.get?_map, hi]
            simp
          · intro i hi
            rw [flat_map_map, List.get?_map, hi]
            simp [div_self (ne_of_gt hd)]

/-- C5 witness: the normalizer evaluated on the 1x2 frame [[1, 3]]
(min 1, max 3) yields [[0, 1]], of the same shape. -/
theorem normalizer_spec_witness :
    ([[(0 : ℚ), 1]] : Frame ℚ).map List.length
      = ([[(1 : ℚ), 3]] : Frame ℚ).map List.length :=
  (normalizer_spec [[1, 3]] [[0, 1]] (by
      have h1 : frameMin ([[(1 : ℚ), 3]] : Frame ℚ) = some 1 := by decide
      have h3 : frameMax ([[(1 : ℚ), 3]] : Frame ℚ) = some 3 := by decide
      simp only [normalizeFrame, h1, h3, Option.bind_eq_bind, Option.some_bind,
        Option.pure_def]
      norm_num)).1

/-! ### C7: derived metadata keys -/

/-- `update_frame` only ever rewrites the displayed image; every other
field of the state is untouched. -/
theorem update_frame_fields {α : Type} [LinearOrderedField α] [DecidableEq α]
    (s : DashState α) (new : ℤ) :
    (update_frame s new).current_stack = s.current_stack
    ∧ (update_frame s new).metadata = s.metadata
    ∧ (update_frame s new).frame_slider_visible = s.frame_slider_visible
    ∧ (update_frame s new).frame_slider_value = s.frame_slider_value
    ∧ (update_frame s new).roi_source = s.roi_source
    ∧ (update_frame s new).roi_stats = s.roi_stats := by
  unfold update_frame apply_display
  repeat' split
  all_goals exact ⟨rfl, rfl, rfl, rfl, rfl, rfl⟩

/-- On a successful decode the handler stores the built metadata dict and
the wrapped stack. -/
theorem handle_file_upload_ok_fields {α : Type} [LinearOrderedField α]
    [DecidableEq α] (s : DashState α) (arr : DecodedArr)
    (tags md : List (String × String)) (stk : List (Frame ℚ))
    (hmd : buildMetadata arr tags = some md)
    (hwrap : wrapStack arr.data = .ok stk) :
    (handle_file_upload s (some (.ok (arr, tags)))).metadata = md
    ∧ (handle_file_upload s (some (.ok (arr, tags)))).current_stack
        = some stk := by
  simp only [handle_file_upload, hmd, hwrap]
  by_cases hlen : stk.length > 1
  · rw [if_pos hlen]
    exact ⟨(update_frame_fields _ _).2.1, (update_frame_fields _ _).1⟩
  · rw [if_neg hlen]
    exact ⟨(update_frame_fields _ _).2.1, (update_frame_fields _ _).1⟩

/-- The three derived keys of a successfully built metadata dict hold the
raw array's shape text, the dtype name, and the "min to max" range text,
provided no TIFF tag shadows them. -/
theorem buildMetadata_dictGet (arr : DecodedArr)
    (tags md : List (String × String)) (mn mx : ℚ)
    (hmn : listMin (flatVals arr.data) = some mn)
    (hmx : listMax (flatVals arr.data) = some mx)
    (hmd : buildMetadata arr tags = some md)
    (hfresh : ∀ kv ∈ tags, kv.1 ≠ "Dimensions" ∧ kv.1 ≠ "Data Type"
        ∧ kv.1 ≠ "Value Range") :
    dictGet md "Dimensions" = some (shapeStr arr.data)
    ∧ dictGet md "Data Type" = some arr.dtypeName
    ∧ dictGet md "Value Range" = some (toString mn ++ " to " ++ toString mx) := by
  simp only [buildMetadata, hmn, hmx, Option.bind_eq_bind, Option.some_bind,
    Option.pure_def, Option.some.injEq] at hmd
  subst hmd
  refine ⟨?_, ?_, ?_⟩
  · rw [dictGet_foldl_of_notin tags (fun kv hkv => (hfresh kv hkv).1),
      dictGet_pyDictSet_ne (by decide), dictGet_pyDictSet_ne (by decide),
      dictGet_pyDictSet_same]
  · rw [dictGet_foldl_of_notin tags (fun kv hkv => (hfresh kv hkv).2.1),
      dictGet_pyDictSet_ne (by decide), dictGet_pyDictSet_same]
  · rw [dictGet_foldl_of_notin tags (fun kv hkv => (hfresh kv hkv).2.2),
      dictGet_pyDictSet_same]

/-- C7, counterexample to the claim as stated: uploading a single 2-D
image of shape (2,2) yields a 1-frame stack — whose shape triple would be
(1, 2, 2) — but the `Dimensions` entry reads "(2, 2)": the metadata is
derived from the raw decoded array before the single-frame wrap. -/
theorem metadata_dimensions_counterexample :
    dictGet (handle_file_upload
        (⟨none, [], ⟨[], 0, 0⟩, none, ⟨0, 0, 0, 0, 0⟩, 0, true⟩ : DashState ℚ)
        (some (.ok (⟨"uint16", .r2 [[0, 1], [2, 3]]⟩, [])))).metadata
        "Dimensions" = some "(2, 2)"
    ∧ (handle_file_upload
        (⟨none, [], ⟨[], 0, 0⟩, none, ⟨0, 0, 0, 0, 0⟩, 0, true⟩ : DashState ℚ)
        (some (.ok (⟨"uint16", .r2 [[0, 1], [2, 3]]⟩, [])))).current_stack
        = some [[[0, 1], [2, 3]]]
    ∧ ("(2, 2)" : String) ≠ "(1, 2, 2)" := by
  refine ⟨by decide, by decide, by decide⟩

/-- C7, amended: after a successful decode (and with tag names not
shadowing the three derived keys) the metadata table contains `Data Type`
= the dtype name and `Value Range` = "min to max" over the entire stack;
`Dimensions` is the raw decoded array's shape as text — the triple
(frames, H, W) for a 3-D upload, but the pair (H, W) for a 2-D upload,
because the metadata is extracted before the 1-frame wrap. -/
theorem metadata_amended :
    (∀ (s : DashState ℚ) (dt : String) (t : List (Frame ℚ))
        (tags md : List (String × String)),
        buildMetadata ⟨dt, .r3 t⟩ tags = some md →
        (∀ kv ∈ tags, kv.1 ≠ "Dimensions" ∧ kv.1 ≠ "Data Type"
            ∧ kv.1 ≠ "Value Range") →
        (handle_file_upload s
            (some (.ok (⟨dt, .r3 t⟩, tags)))).current_stack = some t
        ∧ dictGet (handle_file_upload s
              (some (.ok (⟨dt, .r3 t⟩, tags)))).metadata "Dimensions"
            = some ("(" ++ toString t.length ++ ", " ++ toString (stackH t)
                ++ ", " ++ toString (stackW t) ++ ")")
        ∧ dictGet (handle_file_upload s
              (some (.ok (⟨dt, .r3 t⟩, tags)))).metadata "Data Type" = some dt
        ∧ (∀ mn mx : ℚ, listMin (flatVals (.r3 t)) = some mn →
            listMax (flatVals (.r3 t)) = some mx →
            dictGet (handle_file_upload s
                (some (.ok (⟨dt, .r3 t⟩, tags)))).metadata "Value Range"
              = some (toString mn ++ " to " ++ toString mx)))
    ∧ (∀ (s : DashState ℚ) (dt : String) (m : Frame ℚ)
        (tags md : List (String × String)),
        buildMetadata ⟨dt, .r2 m⟩ tags = some md →
        (∀ kv ∈ tags, kv.1 ≠ "Dimensions" ∧ kv.1 ≠ "Data Type"
            ∧ kv.1 ≠ "Value Range") →
        (handle_file_upload s
            (some (.ok (⟨dt, .r2 m⟩, tags)))).current_stack = some [m]
        ∧ dictGet (handle_file_upload s
              (some (.ok (⟨dt, .r2 m⟩, tags)))).metadata "Dimensions"
            = some ("(" ++ toString (frameH m) ++ ", " ++ toString (frameW m)
                ++ ")")
        ∧ dictGet (handle_file_upload s
              (some (.ok (⟨dt, .r2 m⟩, tags)))).metadata "Data Type" = some dt
        ∧ (∀ mn mx : ℚ, listMin (flatVals (.r2 m)) = some mn →
            listMax (flatVals (.r2 m)) = some mx →
            dictGet (handle_file_upload s
                (some (.ok (⟨dt, .r2 m⟩, tags)))).metadata "Value Range"
              = some (toString mn ++ " to " ++ toString mx))) := by
  constructor
  · intro s dt t tags md hmd hfresh
    have hwrap : wrapStack (Decoded.r3 t) = .ok t := rfl
    have hf := handle_file_upload_ok_fields s ⟨dt, .r3 t⟩ tags md t hmd hwrap
    obtain ⟨mn0, hmn0⟩ : ∃ v, listMin (flatVals (Decoded.r3 t)) = some v := by
      cases hv : listMin (flatVals (Decoded.r3 t)) with
      | none => simp [buildMetadata, hv] at hmd
      | some v => exact ⟨v, rfl⟩
    obtain ⟨mx0, hmx0⟩ : ∃ v, listMax (flatVals (Decoded.r3 t)) = some v := by
      cases hv : listMax (flatVals (Decoded.r3 t)) with
      | none => simp [buildMetadata, hmn0, hv] at hmd
      | some v => exact ⟨v, rfl⟩
    have hbase := buildMetadata_dictGet ⟨dt, .r3 t⟩ tags md mn0 mx0 hmn0 hmx0
      hmd hfresh
    refine ⟨hf.2, ?_, ?_, ?_⟩
    · rw [hf.1]; exact hbase.1
    · rw [hf.1]; exact hbase.2.1
    · intro mn mx hmn hmx
      rw [hmn0] at hmn
      injection hmn with e1
      rw [hmx0] at hmx
      injection hmx with e2
      rw [hf.1, ← e1, ← e2]
      exact hbase.2.2
  · intro s dt m tags md hmd hfresh
    have hwrap : wrapStack (Decoded.r2 m) = .ok [m] := rfl
    have hf := handle_file_upload_ok_fields s ⟨dt, .r2 m⟩ tags md [m] hmd hwrap
    obtain ⟨mn0, hmn0⟩ : ∃ v, listMin (flatVals (Decoded.r2 m)) = some v := by
      cases hv : listMin (flatVals (Decoded.r2 m)) with
      | none => simp [buildMetadata, hv] at hmd
      | some v => exact ⟨v, rfl⟩
    obtain ⟨mx0, hmx0⟩ : ∃ v, listMax (flatVals (Decoded.r2 m)) = some v := by
      cases hv : listMax (flatVals (Decoded.r2 m)) with
      | none => simp [buildMetadata, hmn0, hv] at hmd
      | some v => exact ⟨v, rfl⟩
    have hbase := buildMetadata_dictGet ⟨dt, .r2 m⟩ tags md mn0 mx0 hmn0 hmx0
      hmd hfresh
    refine ⟨hf.2, ?_, ?_, ?_⟩
    · rw [hf.1]; exact hbase.1
    · rw [hf.1]; exact hbase.2.1
    · intro mn mx hmn hmx
      rw [hmn0] at hmn
      injection hmn with e1
      rw [hmx0] at hmx
      injection hmx with e2
      rw [hf.1, ← e1, ← e2]
      exact hbase.2.2

/-- C7 witness: a concrete 3-D upload (one 2x2 frame) into a fresh
session stores that stack. -/
theorem metadata_amended_witness :
    (handle_file_upload
        (⟨none, [], ⟨[], 0, 0⟩, none, ⟨0, 0, 0, 0, 0⟩, 0, true⟩ : DashState ℚ)
        (some (.ok (⟨"uint16", .r3 [[[0, 1], [2, 3]]]⟩, [])))).current_stack
      = some [[[0, 1], [2, 3]]] :=
  (metadata_amended.1
      (⟨none, [], ⟨[], 0, 0⟩, none, ⟨0, 0, 0, 0, 0⟩, 0, true⟩ : DashState ℚ)
      "uint16" [[[0, 1], [2, 3]]] []
      [("Dimensions", "(1, 2, 2)"), ("Data Type", "uint16"),
        ("Value Range", "0 to 3")]
      (by decide) (by decide)).1

/-! ### C8: contrast transform -/

/-- Division with a nonzero denominator does not raise. -/
theorem pyDiv_of_ne {α : Type} [DivisionRing α] [DecidableEq α] (a : α)
    {b : α} (h : b ≠ 0) : pyDiv a b = some (a / b) := if_neg h

/-- C8: with a stack loaded and gamma g > 0, `update_contrast` displays
`update_image_source (frame ** (1/g))` — the power-law transform of the
raw frame, normalized afterwards (not a power of the normalized frame);
g = 1 leaves the frame unchanged, and pixel value 4 with g = 2 maps to
exactly 2. -/
theorem contrast_transform_spec :
    (∀ (s : DashState ℝ) (stk : List (Frame ℚ)) (frame : Frame ℚ) (g : ℝ),
        s.current_stack = some stk →
        pyGet stk s.frame_slider_value = some frame →
        0 < g →
        update_contrast s g
          = (update_image_source (contrast_tfm frame (1 / g))).map
              (fun d => { s with image_source := d }))
    ∧ (∀ f : Frame ℚ, contrast_tfm f (1 / (1 : ℝ)) = castFrame f)
    ∧ contrast_tfm [[4]] (1 / (2 : ℝ)) = [[(2 : ℝ)]] := by
  refine ⟨?_, ?_, ?_⟩
  · intro s stk frame g hs hf hg
    simp only [update_contrast, hs, hf, pyDiv_of_ne 1 (ne_of_gt hg),
      Option.bind_eq_bind, Option.some_bind]
    cases update_image_source (contrast_tfm frame (1 / g)) <;> rfl
  · intro f
    unfold contrast_tfm castFrame
    norm_num [Real.rpow_one]
  · have h42 : (4 : ℝ) ^ ((2 : ℝ))⁻¹ = 2 := by
      rw [show (4 : ℝ) = (2 : ℝ) ^ (2 : ℕ) by norm_num,
        ← Real.rpow_natCast (2 : ℝ) 2,
        ← Real.rpow_mul (by norm_num : (0 : ℝ) ≤ 2)]
      norm_num [Real.rpow_one]
    simp [contrast_tfm, h42]

/-- C8 witness: a loaded 1x1 stack with pixel value 4 and gamma 2. -/
theorem contrast_transform_spec_witness :
    update_contrast
        (⟨some [[[4]]], [], ⟨[], 0, 0⟩, none, ⟨0, 0, 0, 0, 0⟩, 0, true⟩ :
          DashState ℝ) 2
      = (update_image_source (contrast_tfm [[4]] (1 / 2))).map
          (fun d =>
            { (⟨some [[[4]]], [], ⟨[], 0, 0⟩, none, ⟨0, 0, 0, 0, 0⟩, 0, true⟩ :
                DashState ℝ) with
              image_source := d }) :=
  contrast_transform_spec.1
    (⟨some [[[4]]], [], ⟨[], 0, 0⟩, none, ⟨0, 0, 0, 0, 0⟩, 0, true⟩ :
      DashState ℝ)
    [[[4]]] [[4]] 2 rfl (by decide) (by norm_num)

/-! ### C10: ROI view and statistics come from the raw stack -/

/-- Replacing only the displayed image leaves the computed ROI statistics
and the computed ROI view unchanged. -/
theorem update_roi_stats_image_irrel {α : Type} (s : DashState α)
    (d : DisplayData α) :
    (update_roi_stats { s with image_source := d }).map (fun u => u.roi_stats)
      = (update_roi_stats s).map (fun u => u.roi_stats)
    ∧ update_roi_view { s with image_source := d } = update_roi_view s := by
  constructor
  · cases hcs : s.current_stack with
    | none => simp [update_roi_stats, hcs]
    | some stk =>
        cases hrs : s.roi_source with
        | none => simp [update_roi_stats, hcs, hrs]
        | some roi =>
            simp only [update_roi_stats, hcs, hrs]
            cases pyGet stk s.frame_slider_value with
            | none => rfl
            | some frame =>
                simp only [Option.some_bind, Option.map_map]
                exact Option.map_congr (fun a _ => rfl)
  · cases hcs : s.current_stack with
    | none => simp [update_roi_view, hcs]
    | some stk =>
        cases hrs : s.roi_source with
        | none => simp [update_roi_view, hcs, hrs]
        | some roi => simp [update_roi_view, hcs, hrs]

/-- C10: `update_roi_view` and `update_roi_stats` are functions of the raw
stored stack, the frame slider and the ROI rectangle only — never of the
contrast-transformed or normalized display array — and `update_contrast`
touches only the display, so changing the contrast parameter never changes
the five ROI statistics (stored or recomputed). -/
theorem roi_stats_raw_frame_invariant :
    (∀ (s t : DashState ℝ) (stk : List (Frame ℚ)) (roi : RoiRect),
        s.current_stack = some stk → t.current_stack = some stk →
        s.roi_source = some roi → t.roi_source = some roi →
        s.frame_slider_value = t.frame_slider_value →
        (update_roi_stats s).map (fun u => u.roi_stats)
            = (update_roi_stats t).map (fun u => u.roi_stats)
        ∧ update_roi_view s = update_roi_view t)
    ∧ (∀ (s s' : DashState ℝ) (g : ℝ),
        update_contrast s g = some s' →
        s'.current_stack = s.current_stack ∧ s'.roi_stats = s.roi_stats
        ∧ s'.roi_source = s.roi_source
        ∧ s'.frame_slider_value = s.frame_slider_value
        ∧ (update_roi_stats s').map (fun u => u.roi_stats)
            = (update_roi_stats s).map (fun u => u.roi_stats)
        ∧ update_roi_view s' = update_roi_view s) := by
  constructor
  · intro s t stk roi hs ht hrs hrt hv
    constructor
    · simp only [update_roi_stats, hs, ht, hrs, hrt, hv]
      cases pyGet stk t.frame_slider_value with
      | none => rfl
      | some frame =>
          simp only [Option.some_bind, Option.map_map]
          exact Option.map_congr (fun a _ => rfl)
    · simp only [update_roi_view, hs, ht, hrs, hrt, hv]
  · intro s s' g h
    cases hcs : s.current_stack with
    | none =>
        simp only [update_contrast, hcs] at h
        injection h with he
        subst he
        exact ⟨hcs, rfl, rfl, rfl, rfl, rfl⟩
    | some stk =>
        simp only [update_contrast, hcs, Option.bind_eq_bind] at h
        cases hpg : pyGet stk s.frame_slider_value with
        | none => rw [hpg] at h; simp at h
        | some frame =>
            rw [hpg] at h
            simp only [Option.some_bind] at h
            cases hdv : pyDiv 1 g with
            | none => rw [hdv] at h; simp at h
            | some inv =>
                rw [hdv] at h
                simp only [Option.some_bind] at h
                cases hui : update_image_source (contrast_tfm frame inv) with
                | none => rw [hui] at h; simp at h
                | some d =>
                    rw [hui] at h
                    simp only [Option.some_bind, Option.pure_def,
                      Option.some.injEq] at h
                    subst h
                    refine ⟨rfl, rfl, rfl, rfl, ?_, ?_⟩
                    · rw [← hcs]
                      exact (update_roi_stats_image_irrel s d).1
                    · rw [← hcs]
                      exact (update_roi_stats_image_irrel s d).2

/-- C10 witness: two loaded states that differ only in the displayed
image produce the same ROI view. -/
theorem roi_stats_raw_frame_invariant_witness :
    update_roi_view
        (⟨some [[[1]]], [], ⟨[], 0, 0⟩, some ⟨0, 0, 1, 1⟩, ⟨0, 0, 0, 0, 0⟩,
          0, true⟩ : DashState ℝ)
      = update_roi_view
        (⟨some [[[1]]], [], ⟨[[5]], 9, 9⟩, some ⟨0, 0, 1, 1⟩, ⟨0, 0, 0, 0, 0⟩,
          0, true⟩ : DashState ℝ) :=
  (roi_stats_raw_frame_invariant.1 _ _ [[[1]]] ⟨0, 0, 1, 1⟩
    rfl rfl rfl rfl rfl).2

/-! ### C9: ROI statistics values -/

/-- C9: on a non-empty ROI the statistics record holds the standard
population values — mean = sum/N; std = square root of the mean squared
deviation (divide by N, not the sample-corrected N-1); min/max are the
least/greatest samples; the median is the middle element of a sorted
permutation of the samples (odd count) — and for samples [1,2,3,4,5] the
record is exactly (3, sqrt 2, 1, 5, 3). -/
theorem roi_statistics_spec :
    (∀ roi : Frame ℚ, flat roi ≠ [] →
        ∃ r, roi_statistics roi = some r
          ∧ r.mean = (flat roi).sum / ((flat roi).length : ℚ)
          ∧ r.std_dev = Real.sqrt
              (((((flat roi).map
                  (fun x => (x - (flat roi).sum / ((flat roi).length : ℚ)) ^ 2)).sum
                / ((flat roi).length : ℚ)) : ℚ) : ℝ)
          ∧ r.vmin ∈ flat roi ∧ (∀ x ∈ flat roi, r.vmin ≤ x)
          ∧ r.vmax ∈ flat roi ∧ (∀ x ∈ flat roi, x ≤ r.vmax)
          ∧ ∃ srt : List ℚ, List.Perm srt (flat roi)
              ∧ List.Sorted (· ≤ ·) srt
              ∧ ((flat roi).length % 2 = 1 →
                  srt.get? ((flat roi).length / 2) = some r.median))
    ∧ roi_statistics [[1, 2, 3, 4, 5]] = some ⟨3, Real.sqrt 2, 1, 5, 3⟩ := by
  constructor
  · intro roi hne
    have hm : np_mean (flat roi)
        = some ((flat roi).sum / ((flat roi).length : ℚ)) := by
      rw [np_mean, if_neg hne]
    have hmap_ne : (flat roi).map
        (fun x => (x - (flat roi).sum / ((flat roi).length : ℚ)) ^ 2) ≠ [] := by
      simpa using hne
    have hv : np_var (flat roi)
        = some ((((flat roi).map
            (fun x => (x - (flat roi).sum / ((flat roi).length : ℚ)) ^ 2)).sum
          / ((flat roi).length : ℚ))) := by
      rw [np_var, hm]
      simp only [Option.some_bind]
      rw [np_mean, if_neg hmap_ne, List.length_map]
    have hstd : np_std (flat roi)
        = some (Real.sqrt
            (((((flat roi).map
                (fun x => (x - (flat roi).sum / ((flat roi).length : ℚ)) ^ 2)).sum
              / ((flat roi).length : ℚ)) : ℚ) : ℝ)) := by
      rw [np_std, hv]
      rfl
    obtain ⟨mn, hmn⟩ := listMin_of_ne_nil hne
    obtain ⟨mx, hmx⟩ := listMax_of_ne_nil hne
    have hlen0 : (flat roi).length ≠ 0 := by
      simpa [List.length_eq_zero] using hne
    have hsorted_len : ((flat roi).insertionSort (· ≤ ·)).length
        = (flat roi).length :=
      (List.perm_insertionSort (· ≤ ·) (flat roi)).length_eq
    obtain ⟨md, hmd⟩ : ∃ md, np_median (flat roi) = some md := by
      simp only [np_median, if_neg hlen0]
      by_cases hpar : (flat roi).length % 2 = 1
      · rw [if_pos hpar]
        have hlt : (flat roi).length / 2
            < ((flat roi).insertionSort (· ≤ ·)).length := by
          rw [hsorted_len]; omega
        exact ⟨_, List.get?_eq_get hlt⟩
      · rw [if_neg hpar]
        have hlt1 : (flat roi).length / 2 - 1
            < ((flat roi).insertionSort (· ≤ ·)).length := by
          rw [hsorted_len]; omega
        have hlt2 : (flat roi).length / 2
            < ((flat roi).insertionSort (· ≤ ·)).length := by
          rw [hsorted_len]; omega
        rw [List.get?_eq_get hlt1, List.get?_eq_get hlt2]
        exact ⟨_, rfl⟩
    have hstats : roi_statistics roi
        = some ⟨(flat roi).sum / ((flat roi).length : ℚ),
            Real.sqrt
              (((((flat roi).map
                  (fun x => (x - (flat roi).sum / ((flat roi).length : ℚ)) ^ 2)).sum
                / ((flat roi).length : ℚ)) : ℚ) : ℝ),
            mn, mx, md⟩ := by
      simp only [roi_statistics, hm, hstd, hmn, hmx, hmd, Option.bind_eq_bind,
        Option.some_bind, Option.pure_def]
    refine ⟨_, hstats, rfl, rfl, listMin_mem hmn, listMin_le hmn,
      listMax_mem hmx, listMax_ge hmx,
      (flat roi).insertionSort (· ≤ ·),
      List.perm_insertionSort (· ≤ ·) (flat roi),
      List.sorted_insertionSort (· ≤ ·) (flat roi), ?_⟩
    intro hodd
    simp only [np_median, if_neg hlen0, if_pos hodd] at hmd
    exact hmd
  · have hm5 : np_mean [1, 2, 3, 4, 5] = some 3 := by
      rw [np_mean, if_neg (by decide)]
      norm_num
    have hmap5 : ([1, 2, 3, 4, 5] : List ℚ).map (fun x => (x - 3) ^ 2)
        = [4, 1, 0, 1, 4] := by
      simp only [List.map_cons, List.map_nil]
      norm_num
    have hv5 : np_var [1, 2, 3, 4, 5] = some 2 := by
      rw [np_var, hm5]
      simp only [Option.some_bind]
      rw [hmap5, np_mean, if_neg (by decide)]
      norm_num [List.sum_cons, List.sum_nil]
    have hs5 : np_std [1, 2, 3, 4, 5] = some (Real.sqrt 2) := by
      rw [np_std, hv5]
      norm_num
    have hmin5 : listMin ([1, 2, 3, 4, 5] : List ℚ) = some 1 := by decide
    have hmax5 : listMax ([1, 2, 3, 4, 5] : List ℚ) = some 5 := by decide
    have hmd5 : np_median ([1, 2, 3, 4, 5] : List ℚ) = some 3 := by decide
    have hflat : flat [[1, 2, 3, 4, 5]] = ([1, 2, 3, 4, 5] : List ℚ) := rfl
    simp only [roi_statistics, hflat, hm5, hs5, hmin5, hmax5, hmd5,
      Option.bind_eq_bind, Option.some_bind, Option.pure_def]

/-- C9 witness: the statistics contract instantiated on the 1x5 ROI
[1,2,3,4,5]. -/
theorem roi_statistics_spec_witness :
    ∃ r, roi_statistics [[1, 2, 3, 4, 5]] = some r
      ∧ r.mean = (flat [[1, 2, 3, 4, 5]]).sum
          / ((flat [[1, 2, 3, 4, 5]]).length : ℚ)
      ∧ r.std_dev = Real.sqrt
          (((((flat [[1, 2, 3, 4, 5]]).map
              (fun x => (x - (flat [[1, 2, 3, 4, 5]]).sum
                / ((flat [[1, 2, 3, 4, 5]]).length : ℚ)) ^ 2)).sum
            / ((flat [[1, 2, 3, 4, 5]]).length : ℚ)) : ℚ) : ℝ)
      ∧ r.vmin ∈ flat [[1, 2, 3, 4, 5]]
      ∧ (∀ x ∈ flat [[1, 2, 3, 4, 5]], r.vmin ≤ x)
      ∧ r.vmax ∈ flat [[1, 2, 3, 4, 5]]
      ∧ (∀ x ∈ flat [[1, 2, 3, 4, 5]], x ≤ r.vmax)
      ∧ ∃ srt : List ℚ, List.Perm srt (flat [[1, 2, 3, 4, 5]])
          ∧ List.Sorted (· ≤ ·) srt
          ∧ ((flat [[1, 2, 3, 4, 5]]).length % 2 = 1 →
              srt.get? ((flat [[1, 2, 3, 4, 5]]).length / 2) = some r.median) :=
  roi_statistics_spec.1 [[1, 2, 3, 4, 5]] (by decide)

end MicroView
